import Mathlib

/-!
# Verification of the EzPlist compose-canvas placement engine

Shallow embedding of the compose-canvas store
(`src/store/multiRegionStore.ts`, the `useComposeStore` section and the
`calculateSnap` helper) and of the drag snapping path of
`src/components/ComposeCanvas.tsx`.

JavaScript numbers are modelled by `ℚ` (every computation in the claims
under scrutiny is exact dyadic/integer arithmetic), `zIndex` and the
`maxZIndex` counter by `ℕ`, and the JS `Set` of selected ids by
`Finset String`.
-/

namespace EzPlist

/-- `SpriteData`: the external sprite record consumed by `addSprites`
(`{id, name, path, width, height}`). -/
structure SpriteData where
  id : String
  name : String
  path : String
  width : ℚ
  height : ℚ
  deriving DecidableEq, Repr

/-- `CanvasSprite` (multiRegionStore.ts lines 306-315): a sprite placed on
the canvas with position and paint order. -/
structure CanvasSprite where
  sprite : SpriteData
  x : ℚ
  y : ℚ
  zIndex : ℕ
  deriving DecidableEq, Repr

/-- Guide direction (`'horizontal' | 'vertical'`), also used as the
distribution direction of `distributeSelected`. -/
inductive Direction where
  | horizontal
  | vertical
  deriving DecidableEq, Repr

/-- Snap guide kind (`'edge' | 'center'`). -/
inductive GuideType where
  | edge
  | center
  deriving DecidableEq, Repr

/-- `SnapGuide` (multiRegionStore.ts lines 321-328). -/
structure SnapGuide where
  direction : Direction
  position : ℚ
  type : GuideType
  deriving DecidableEq, Repr

/-- Canvas background kind. -/
inductive BackgroundType where
  | transparent
  | white
  | black
  | checker
  deriving DecidableEq, Repr

/-- Alignment mode of `alignSelected`. -/
inductive Alignment where
  | left
  | right
  | top
  | bottom
  | centerH
  | centerV
  deriving DecidableEq, Repr

/-- A `{id, x, y}` position update record. -/
structure PosUpdate where
  id : String
  x : ℚ
  y : ℚ
  deriving DecidableEq, Repr

/-- The compose store state (multiRegionStore.ts lines 333-363,
data fields only). -/
structure ComposeState where
  canvasSprites : List CanvasSprite
  selectedIds : Finset String
  maxZIndex : ℕ
  scale : ℚ
  offsetX : ℚ
  offsetY : ℚ
  showSnapGuides : Bool
  activeGuides : List SnapGuide
  snapThreshold : ℚ
  snapEnabled : Bool
  backgroundType : BackgroundType
  isDragging : Bool
  isSelecting : Bool
  selectionStart : Option (ℚ × ℚ)
  selectionEnd : Option (ℚ × ℚ)

/-- Initial store state (multiRegionStore.ts lines 420-434). -/
def initialComposeState : ComposeState where
  canvasSprites := []
  selectedIds := ∅
  maxZIndex := 0
  scale := 1
  offsetX := 0
  offsetY := 0
  showSnapGuides := true
  activeGuides := []
  snapThreshold := 8
  snapEnabled := true
  backgroundType := .checker
  isDragging := false
  isSelecting := false
  selectionStart := none
  selectionEnd := none

/-- The ids currently present on the canvas. -/
def presentIds (s : ComposeState) : List String :=
  s.canvasSprites.map (fun cs => cs.sprite.id)

/-- The staircase placement loop body of `addSprites`
(multiRegionStore.ts lines 454-471): place each new sprite at the running
cursor `(nx, ny)` with z-index `z+1`, advance `nx` by `width + 10`, and
wrap to `(20, ny + 200)` when the advanced `nx` exceeds `2000`. -/
def placeAll (nx ny : ℚ) (z : ℕ) : List SpriteData → List CanvasSprite
  | [] => []
  | sp :: rest =>
    let cs : CanvasSprite := ⟨sp, nx, ny, z + 1⟩
    let nx' := nx + sp.width + 10
    if nx' > 2000 then cs :: placeAll 20 (ny + 200) (z + 1) rest
    else cs :: placeAll nx' ny (z + 1) rest

/-- The incoming batch filtered against ids already on the canvas
(multiRegionStore.ts lines 438-439). The batch is NOT deduplicated against
itself. -/
def newSpritesOf (sprites : List SpriteData) (s : ComposeState) : List SpriteData :=
  sprites.filter (fun sp => !(decide (sp.id ∈ presentIds s)))

/-- The placement cursor's start `x` (multiRegionStore.ts lines 444-452):
`20` on an empty canvas, else the maximal right edge of the existing
sprites plus the 10-unit padding. -/
def startX (s : ComposeState) : ℚ :=
  match s.canvasSprites.map (fun cs => cs.x + cs.sprite.width) with
  | [] => 20
  | r :: rs => rs.foldl max r + 10

/-- `addSprites` (multiRegionStore.ts lines 436-477): filter out ids
already on the canvas; if nothing remains, return the state unchanged;
otherwise place the new sprites with the staircase loop starting at
`(startX s, 20)`, and advance `maxZIndex` once per placed sprite. -/
def addSprites (sprites : List SpriteData) (s : ComposeState) : ComposeState :=
  let newSprites := newSpritesOf sprites s
  if newSprites.length = 0 then s
  else
    { s with
      canvasSprites := s.canvasSprites ++ placeAll (startX s) 20 s.maxZIndex newSprites
      maxZIndex := s.maxZIndex + newSprites.length }

/-- `removeSprites` (multiRegionStore.ts lines 479-489): drop the matching
sprites and delete the same ids from the selection set. -/
def removeSprites (ids : List String) (s : ComposeState) : ComposeState :=
  { s with
    canvasSprites := s.canvasSprites.filter (fun cs => !(decide (cs.sprite.id ∈ ids)))
    selectedIds := s.selectedIds.filter (fun i => i ∉ ids) }

/-- `clearCanvas` (multiRegionStore.ts lines 491-497). -/
def clearCanvas (s : ComposeState) : ComposeState :=
  { s with
    canvasSprites := []
    selectedIds := ∅
    maxZIndex := 0
    activeGuides := [] }

/-- `updateSpritePosition` (multiRegionStore.ts lines 499-504). -/
def updateSpritePosition (id : String) (x y : ℚ) (s : ComposeState) : ComposeState :=
  { s with
    canvasSprites := s.canvasSprites.map (fun cs =>
      if cs.sprite.id = id then { cs with x := x, y := y } else cs) }

/-- Lookup in a JS `Map` built from an update list: on duplicate keys the
last entry wins, hence the lookup searches the reversed list. -/
def lastLookup (updates : List PosUpdate) (id : String) : Option PosUpdate :=
  updates.reverse.find? (fun u => u.id = id)

/-- Apply an update map to the sprite list
(the `canvasSprites.map` + `updateMap.get` pattern used by
`updateSpritesPosition`, `alignSelected` and `distributeSelected`). -/
def applyUpdates (updates : List PosUpdate) (l : List CanvasSprite) : List CanvasSprite :=
  l.map (fun cs =>
    match lastLookup updates cs.sprite.id with
    | some u => { cs with x := u.x, y := u.y }
    | none => cs)

/-- `updateSpritesPosition` (multiRegionStore.ts lines 506-515). -/
def updateSpritesPosition (updates : List PosUpdate) (s : ComposeState) : ComposeState :=
  { s with canvasSprites := applyUpdates updates s.canvasSprites }

/-- `selectSprite` (multiRegionStore.ts lines 517-528): start from the
current selection when `multi` is true and from the empty set otherwise,
then toggle membership of `id` in that starting set. -/
def selectSprite (id : String) (multi : Bool) (s : ComposeState) : ComposeState :=
  let newSelected := if multi then s.selectedIds else (∅ : Finset String)
  { s with
    selectedIds :=
      if id ∈ newSelected then newSelected.erase id else insert id newSelected }

/-- A selection rectangle `{x, y, width, height}`. -/
structure Rect where
  x : ℚ
  y : ℚ
  width : ℚ
  height : ℚ
  deriving DecidableEq, Repr

/-- `selectSpritesInRect` (multiRegionStore.ts lines 530-548): replace the
selection with every sprite whose box satisfies
`cs.x < rectRight && spriteRight > x && cs.y < rectBottom && spriteBottom > y`. -/
def selectSpritesInRect (rect : Rect) (s : ComposeState) : ComposeState :=
  { s with
    selectedIds := s.canvasSprites.foldl (fun acc cs =>
      if cs.x < rect.x + rect.width ∧ cs.x + cs.sprite.width > rect.x ∧
         cs.y < rect.y + rect.height ∧ cs.y + cs.sprite.height > rect.y
      then insert cs.sprite.id acc else acc) ∅ }

/-- `selectAll` (multiRegionStore.ts lines 550-553). -/
def selectAll (s : ComposeState) : ComposeState :=
  { s with selectedIds := (presentIds s).toFinset }

/-- `deselectAll` (multiRegionStore.ts lines 555-556). -/
def deselectAll (s : ComposeState) : ComposeState :=
  { s with selectedIds := ∅ }

/-- `bringToFront` (multiRegionStore.ts lines 558-567): the target sprite
gets `maxZIndex + 1`; the counter advances. -/
def bringToFront (id : String) (s : ComposeState) : ComposeState :=
  let newZIndex := s.maxZIndex + 1
  { s with
    canvasSprites := s.canvasSprites.map (fun cs =>
      if cs.sprite.id = id then { cs with zIndex := newZIndex } else cs)
    maxZIndex := newZIndex }

/-- `sendToBack` (multiRegionStore.ts lines 569-574): zIndex 0, counter
untouched. -/
def sendToBack (id : String) (s : ComposeState) : ComposeState :=
  { s with
    canvasSprites := s.canvasSprites.map (fun cs =>
      if cs.sprite.id = id then { cs with zIndex := 0 } else cs) }

/-- `setScale` (multiRegionStore.ts lines 576-577). -/
def setScale (v : ℚ) (s : ComposeState) : ComposeState :=
  { s with scale := max 0.1 (min 5 v) }

/-- `toggleSnap` (multiRegionStore.ts lines 585-586). -/
def toggleSnap (s : ComposeState) : ComposeState :=
  { s with snapEnabled := !s.snapEnabled }

/-- `setActiveGuides` (multiRegionStore.ts lines 588-589). -/
def setActiveGuides (guides : List SnapGuide) (s : ComposeState) : ComposeState :=
  { s with activeGuides := guides }

/-- `Math.min` over a spread list (callers guarantee the list nonempty). -/
def listMin : List ℚ → ℚ
  | [] => 0
  | h :: t => t.foldl min h

/-- `Math.max` over a spread list (callers guarantee the list nonempty). -/
def listMax : List ℚ → ℚ
  | [] => 0
  | h :: t => t.foldl max h

/-- `alignSelected` (multiRegionStore.ts lines 607-681): no-op below two
selected sprites, otherwise snap the selected boxes' edges / centers. -/
def alignSelected (alignment : Alignment) (s : ComposeState) : ComposeState :=
  if s.selectedIds.card < 2 then s
  else
    let selectedSprites := s.canvasSprites.filter
      (fun cs => decide (cs.sprite.id ∈ s.selectedIds))
    if selectedSprites.length < 2 then s
    else
      let updates : List PosUpdate :=
        match alignment with
        | .left =>
          let minX := listMin (selectedSprites.map (fun cs => cs.x))
          selectedSprites.map (fun cs => ⟨cs.sprite.id, minX, cs.y⟩)
        | .right =>
          let maxRight := listMax (selectedSprites.map (fun cs => cs.x + cs.sprite.width))
          selectedSprites.map (fun cs => ⟨cs.sprite.id, maxRight - cs.sprite.width, cs.y⟩)
        | .top =>
          let minY := listMin (selectedSprites.map (fun cs => cs.y))
          selectedSprites.map (fun cs => ⟨cs.sprite.id, cs.x, minY⟩)
        | .bottom =>
          let maxBottom := listMax (selectedSprites.map (fun cs => cs.y + cs.sprite.height))
          selectedSprites.map (fun cs => ⟨cs.sprite.id, cs.x, maxBottom - cs.sprite.height⟩)
        | .centerH =>
          let centerY := (listMin (selectedSprites.map (fun cs => cs.y)) +
            listMax (selectedSprites.map (fun cs => cs.y + cs.sprite.height))) / 2
          selectedSprites.map (fun cs => ⟨cs.sprite.id, cs.x, centerY - cs.sprite.height / 2⟩)
        | .centerV =>
          let centerX := (listMin (selectedSprites.map (fun cs => cs.x)) +
            listMax (selectedSprites.map (fun cs => cs.x + cs.sprite.width))) / 2
          selectedSprites.map (fun cs => ⟨cs.sprite.id, centerX - cs.sprite.width / 2, cs.y⟩)
      { s with canvasSprites := applyUpdates updates s.canvasSprites }

/-- Stable insertion of a sprite into a key-sorted list: the new element
goes before the first element of greater-or-equal key, matching the
stability of the ES2019 `Array.prototype.sort`. -/
def insSorted (key : CanvasSprite → ℚ) (c : CanvasSprite) :
    List CanvasSprite → List CanvasSprite
  | [] => [c]
  | h :: t => if key c ≤ key h then c :: h :: t else h :: insSorted key c t

/-- Stable ascending sort by a rational key, modelling
`.sort((a, b) => key(a) - key(b))`. -/
def sortByKey (key : CanvasSprite → ℚ) : List CanvasSprite → List CanvasSprite
  | [] => []
  | h :: t => insSorted key h (sortByKey key t)

/-- The coordinate a distribution direction sorts by and redistributes
(`x` for `'horizontal'`, `y` for `'vertical'`). -/
def distPos : Direction → CanvasSprite → ℚ
  | .horizontal, cs => cs.x
  | .vertical, cs => cs.y

/-- The sprite extent along the distribution direction. -/
def distSize : Direction → CanvasSprite → ℚ
  | .horizontal, cs => cs.sprite.width
  | .vertical, cs => cs.sprite.height

/-- The moving coordinate of an update along a direction. -/
def distCoord : Direction → PosUpdate → ℚ
  | .horizontal, u => u.x
  | .vertical, u => u.y

/-- The untouched cross coordinate of an update along a direction. -/
def distCross : Direction → PosUpdate → ℚ
  | .horizontal, u => u.y
  | .vertical, u => u.x

/-- The untouched cross coordinate of a sprite along a direction. -/
def spriteCross : Direction → CanvasSprite → ℚ
  | .horizontal, cs => cs.y
  | .vertical, cs => cs.x

/-- The update-building loop of `distributeSelected`
(multiRegionStore.ts lines 702-707 / 715-720), with the running cursor
`cur` standing for the mutable `currentX`/`currentY`: emit the cursor as
the sprite's new coordinate along `dir` (the cross coordinate is kept),
then advance the cursor by size-along-`dir` plus `gap`. -/
def distUpdates (dir : Direction) (gap : ℚ) : ℚ → List CanvasSprite → List PosUpdate
  | _, [] => []
  | cur, cs :: rest =>
    (match dir with
     | .horizontal => (⟨cs.sprite.id, cur, cs.y⟩ : PosUpdate)
     | .vertical => ⟨cs.sprite.id, cs.x, cur⟩) ::
    distUpdates dir gap (cur + distSize dir cs + gap) rest

/-- The selected sprites, filtered then sorted by position along the
distribution direction (multiRegionStore.ts lines 687-689). -/
def distSorted (dir : Direction) (s : ComposeState) : List CanvasSprite :=
  sortByKey (distPos dir)
    (s.canvasSprites.filter (fun cs => decide (cs.sprite.id ∈ s.selectedIds)))

/-- `gap = availableSpace / (count - 1)` where `availableSpace =
last.pos + last.size - first.pos - totalSize` along the direction
(multiRegionStore.ts lines 696-700 / 709-713). -/
def distGap (dir : Direction) : List CanvasSprite → ℚ
  | [] => 0
  | f :: rest =>
    let l := (f :: rest).getLast (List.cons_ne_nil f rest)
    let total := ((f :: rest).map (distSize dir)).sum
    (distPos dir l + distSize dir l - distPos dir f - total) /
      (((f :: rest).length : ℚ) - 1)

/-- The full update list computed by `distributeSelected` once its guards
have passed. -/
def distUpdatesOf (dir : Direction) (s : ComposeState) : List PosUpdate :=
  match distSorted dir s with
  | [] => []
  | f :: rest => distUpdates dir (distGap dir (f :: rest)) (distPos dir f) (f :: rest)

/-- `distributeSelected` (multiRegionStore.ts lines 683-730): no-op below
three selected sprites; otherwise sort the selection along the direction,
keep the first sprite's coordinate, and walk the cursor by `size + gap`.
The two direction branches of the source are factored through
`distPos`/`distSize`. -/
def distributeSelected (dir : Direction) (s : ComposeState) : ComposeState :=
  if s.selectedIds.card < 3 then s
  else if (distSorted dir s).length < 3 then s
  else { s with canvasSprites := applyUpdates (distUpdatesOf dir s) s.canvasSprites }

/-- The running result of `calculateSnap`: the (possibly corrected)
position and the ordered guide list. -/
structure SnapResult where
  x : ℚ
  y : ℚ
  guides : List SnapGuide
  deriving DecidableEq, Repr

/-- Snap rule "left edge to other's left edge"
(multiRegionStore.ts lines 823-827). The condition reads the current
(already corrected) `x`. -/
def ruleLeftLeft (t otherX : ℚ) (acc : SnapResult) : SnapResult :=
  if |acc.x - otherX| < t then
    { acc with x := otherX, guides := acc.guides ++ [⟨.vertical, otherX, .edge⟩] }
  else acc

/-- Snap rule "right edge to other's right edge" (lines 828-832). The
condition compares the right edge frozen at entry to `calculateSnap`. -/
def ruleRightRight (t sprR otherR w : ℚ) (acc : SnapResult) : SnapResult :=
  if |sprR - otherR| < t then
    { acc with x := otherR - w, guides := acc.guides ++ [⟨.vertical, otherR, .edge⟩] }
  else acc

/-- Snap rule "left edge to other's right edge" (lines 833-837). -/
def ruleLeftOtherRight (t otherR : ℚ) (acc : SnapResult) : SnapResult :=
  if |acc.x - otherR| < t then
    { acc with x := otherR, guides := acc.guides ++ [⟨.vertical, otherR, .edge⟩] }
  else acc

/-- Snap rule "right edge to other's left edge" (lines 838-842). -/
def ruleRightOtherLeft (t sprR otherX w : ℚ) (acc : SnapResult) : SnapResult :=
  if |sprR - otherX| < t then
    { acc with x := otherX - w, guides := acc.guides ++ [⟨.vertical, otherX, .edge⟩] }
  else acc

/-- Snap rule "x centers aligned" (lines 843-847). -/
def ruleCenterX (t sprCX otherCX w : ℚ) (acc : SnapResult) : SnapResult :=
  if |sprCX - otherCX| < t then
    { acc with x := otherCX - w / 2,
               guides := acc.guides ++ [⟨.vertical, otherCX, .center⟩] }
  else acc

/-- Snap rule "top edge to other's top edge" (lines 849-853). -/
def ruleTopTop (t otherY : ℚ) (acc : SnapResult) : SnapResult :=
  if |acc.y - otherY| < t then
    { acc with y := otherY, guides := acc.guides ++ [⟨.horizontal, otherY, .edge⟩] }
  else acc

/-- Snap rule "bottom edge to other's bottom edge" (lines 854-858). -/
def ruleBottomBottom (t sprB otherB hgt : ℚ) (acc : SnapResult) : SnapResult :=
  if |sprB - otherB| < t then
    { acc with y := otherB - hgt, guides := acc.guides ++ [⟨.horizontal, otherB, .edge⟩] }
  else acc

/-- Snap rule "top edge to other's bottom edge" (lines 859-863). -/
def ruleTopOtherBottom (t otherB : ℚ) (acc : SnapResult) : SnapResult :=
  if |acc.y - otherB| < t then
    { acc with y := otherB, guides := acc.guides ++ [⟨.horizontal, otherB, .edge⟩] }
  else acc

/-- Snap rule "bottom edge to other's top edge" (lines 864-868). -/
def ruleBottomOtherTop (t sprB otherY hgt : ℚ) (acc : SnapResult) : SnapResult :=
  if |sprB - otherY| < t then
    { acc with y := otherY - hgt, guides := acc.guides ++ [⟨.horizontal, otherY, .edge⟩] }
  else acc

/-- Snap rule "y centers aligned" (lines 869-873). -/
def ruleCenterY (t sprCY otherCY hgt : ℚ) (acc : SnapResult) : SnapResult :=
  if |sprCY - otherCY| < t then
    { acc with y := otherCY - hgt / 2,
               guides := acc.guides ++ [⟨.horizontal, otherCY, .center⟩] }
  else acc

/-- One iteration of the `for (const other of otherSprites)` loop of
`calculateSnap` (lines 817-874): the ten rules run in their fixed source
order, each overwriting the coordinate set by an earlier one. -/
def snapAgainst (t sprR sprB sprCX sprCY w hgt : ℚ)
    (acc : SnapResult) (other : CanvasSprite) : SnapResult :=
  let otherR := other.x + other.sprite.width
  let otherB := other.y + other.sprite.height
  let otherCX := other.x + other.sprite.width / 2
  let otherCY := other.y + other.sprite.height / 2
  ruleCenterY t sprCY otherCY hgt
    (ruleBottomOtherTop t sprB other.y hgt
      (ruleTopOtherBottom t otherB
        (ruleBottomBottom t sprB otherB hgt
          (ruleTopTop t other.y
            (ruleCenterX t sprCX otherCX w
              (ruleRightOtherLeft t sprR other.x w
                (ruleLeftOtherRight t otherR
                  (ruleRightRight t sprR otherR w
                    (ruleLeftLeft t other.x acc)))))))))

/-- `calculateSnap` (multiRegionStore.ts lines 802-877). The sprite's own
right edge, bottom edge and centers are computed once from the incoming
position, while the corrected `x`/`y` thread through the loop. -/
def calculateSnap (position size : ℚ × ℚ) (otherSprites : List CanvasSprite)
    (threshold : ℚ) : SnapResult :=
  let sprR := position.1 + size.1
  let sprB := position.2 + size.2
  let sprCX := position.1 + size.1 / 2
  let sprCY := position.2 + size.2 / 2
  otherSprites.foldl (snapAgainst threshold sprR sprB sprCX sprCY size.1 size.2)
    ⟨position.1, position.2, []⟩

/-- One staircase cursor step of `addSprites`: after a sprite of width `w`
is placed at `(x, y)`, the next sprite goes to `(x + w + 10, y)` unless
that `x` exceeds `2000`, in which case the cursor wraps to
`(20, y + 200)`. -/
def stairStep (x y w : ℚ) : ℚ × ℚ :=
  if x + w + 10 > 2000 then (20, y + 200) else (x + w + 10, y)

/-- Two consecutively placed sprites are in staircase succession. -/
def stairRel (a b : CanvasSprite) : Prop :=
  (b.x, b.y) = stairStep a.x a.y a.sprite.width

/-- The list of moving coordinates emitted by the `distributeSelected`
cursor walk, for a list of sizes along the axis. -/
def coordsFrom (cur gap : ℚ) : List ℚ → List ℚ
  | [] => []
  | w :: ws => cur :: coordsFrom (cur + w + gap) gap ws

/-- A store transition, for stating trace invariants. -/
inductive StoreOp where
  | add (sprites : List SpriteData)
  | remove (ids : List String)
  | clear
  | front (id : String)
  | back (id : String)
  | moveOne (id : String) (x y : ℚ)
  | move (updates : List PosUpdate)

/-- Dispatch a `StoreOp` to the corresponding store transition. -/
def applyOp : StoreOp → ComposeState → ComposeState
  | .add l, s => addSprites l s
  | .remove ids, s => removeSprites ids s
  | .clear, s => clearCanvas s
  | .front id, s => bringToFront id s
  | .back id, s => sendToBack id s
  | .moveOne id x y, s => updateSpritePosition id x y s
  | .move us, s => updateSpritesPosition us s

/-- Run a sequence of store transitions from a state. -/
def runOps (ops : List StoreOp) (s : ComposeState) : ComposeState :=
  ops.foldl (fun acc op => applyOp op acc) s

/-- The z-order invariant: the counter dominates every placed sprite's
`zIndex`. -/
def zInv (s : ComposeState) : Prop :=
  ∀ cs ∈ s.canvasSprites, cs.zIndex ≤ s.maxZIndex

/-- The id-uniqueness / selection-subset invariant of the data model. -/
def uniqInv (s : ComposeState) : Prop :=
  (presentIds s).Nodup ∧ ∀ id ∈ s.selectedIds, id ∈ presentIds s

/-- An add/remove transition whose batch honours the import interface
contract (ids unique within an `addSprites` batch). -/
def validBatchOp : StoreOp → Prop
  | .add l => (l.map SpriteData.id).Nodup
  | .remove _ => True
  | _ => False

/-- Positive-area overlap of two axis-aligned boxes, stated interval-wise:
both the horizontal and the vertical projections intersect in a segment of
positive length. -/
def rectOverlapPos (aL aR aT aB bL bR bT bB : ℚ) : Prop :=
  max aL bL < min aR bR ∧ max aT bT < min aB bB

/-- A 100×100 sprite used in the concrete scenarios. -/
def spriteOne : SpriteData := ⟨"s1", "first", "s1.png", 100, 100⟩

/-- A second 100×100 sprite used in the concrete scenarios. -/
def spriteTwo : SpriteData := ⟨"s2", "second", "s2.png", 100, 100⟩

/-- `spriteOne` as placed by `addSprites` on an empty canvas. -/
def placedOne : CanvasSprite := ⟨spriteOne, 20, 20, 1⟩

/-- A 104-wide sprite whose left edge sits at `x = 20`, used to exhibit
snap drift against a co-aligned 100-wide sprite. -/
def placedWide : CanvasSprite := ⟨⟨"wide", "wide", "wide.png", 104, 100⟩, 20, 20, 1⟩

/-- The vertical guides of a guide list (what a rendering consumer sees
as vertical alignment lines). -/
def verticalGuides (gs : List SnapGuide) : List SnapGuide :=
  gs.filter (fun g => decide (g.direction = Direction.vertical))

/-- Two records sharing the id `"dup"`, for the batch-deduplication
behaviour of `addSprites`. -/
def dupFirst : SpriteData := ⟨"dup", "n1", "p1.png", 30, 30⟩

/-- Second record with id `"dup"`. -/
def dupSecond : SpriteData := ⟨"dup", "n2", "p2.png", 40, 40⟩

/-- A canvas holding just `spriteOne`, obtained through `addSprites`. -/
def oneSpriteState : ComposeState := addSprites [spriteOne] initialComposeState

/-- A one-sprite state with the z-counter at 1. -/
def wZState : ComposeState :=
  { initialComposeState with canvasSprites := [placedOne], maxZIndex := 1 }

/-- A one-sprite state for the marquee-selection scenario. -/
def wMarqueeState : ComposeState :=
  { initialComposeState with canvasSprites := [placedOne] }

/-- A 10×10 sprite for the distribution scenario. -/
def distA : SpriteData := ⟨"da", "da", "da.png", 10, 10⟩

/-- A 20×20 sprite for the distribution scenario. -/
def distB : SpriteData := ⟨"db", "db", "db.png", 20, 20⟩

/-- A 30×30 sprite for the distribution scenario. -/
def distC : SpriteData := ⟨"dc", "dc", "dc.png", 30, 30⟩

/-- A three-sprite state with all three sprites selected. -/
def wDistState : ComposeState :=
  { initialComposeState with
    canvasSprites := [⟨distA, 0, 0, 1⟩, ⟨distB, 50, 10, 2⟩, ⟨distC, 200, 20, 3⟩]
    selectedIds := {"da", "db", "dc"} }

/-! ## Helper lemmas -/

theorem ruleLeftLeft_x (t oX : ℚ) (acc : SnapResult) :
    (ruleLeftLeft t oX acc).x = if |acc.x - oX| < t then oX else acc.x := by
  unfold ruleLeftLeft; split <;> rfl

theorem ruleRightRight_x (t sprR oR w : ℚ) (acc : SnapResult) :
    (ruleRightRight t sprR oR w acc).x = if |sprR - oR| < t then oR - w else acc.x := by
  unfold ruleRightRight; split <;> rfl

theorem ruleLeftOtherRight_x (t oR : ℚ) (acc : SnapResult) :
    (ruleLeftOtherRight t oR acc).x = if |acc.x - oR| < t then oR else acc.x := by
  unfold ruleLeftOtherRight; split <;> rfl

theorem ruleRightOtherLeft_x (t sprR oX w : ℚ) (acc : SnapResult) :
    (ruleRightOtherLeft t sprR oX w acc).x = if |sprR - oX| < t then oX - w else acc.x := by
  unfold ruleRightOtherLeft; split <;> rfl

theorem ruleCenterX_x (t sprCX oCX w : ℚ) (acc : SnapResult) :
    (ruleCenterX t sprCX oCX w acc).x = if |sprCX - oCX| < t then oCX - w / 2 else acc.x := by
  unfold ruleCenterX; split <;> rfl

theorem ruleTopTop_x (t oY : ℚ) (acc : SnapResult) : (ruleTopTop t oY acc).x = acc.x := by
  unfold ruleTopTop; split <;> rfl

theorem ruleBottomBottom_x (t sprB oB hgt : ℚ) (acc : SnapResult) :
    (ruleBottomBottom t sprB oB hgt acc).x = acc.x := by
  unfold ruleBottomBottom; split <;> rfl

theorem ruleTopOtherBottom_x (t oB : ℚ) (acc : SnapResult) :
    (ruleTopOtherBottom t oB acc).x = acc.x := by
  unfold ruleTopOtherBottom; split <;> rfl

theorem ruleBottomOtherTop_x (t sprB oY hgt : ℚ) (acc : SnapResult) :
    (ruleBottomOtherTop t sprB oY hgt acc).x = acc.x := by
  unfold ruleBottomOtherTop; split <;> rfl

theorem ruleCenterY_x (t sprCY oCY hgt : ℚ) (acc : SnapResult) :
    (ruleCenterY t sprCY oCY hgt acc).x = acc.x := by
  unfold ruleCenterY; split <;> rfl

theorem ruleLeftLeft_guides (t oX : ℚ) (acc : SnapResult) :
    (ruleLeftLeft t oX acc).guides =
      if |acc.x - oX| < t then acc.guides ++ [⟨.vertical, oX, .edge⟩] else acc.guides := by
  unfold ruleLeftLeft; split <;> rfl

theorem ruleRightRight_guides (t sprR oR w : ℚ) (acc : SnapResult) :
    (ruleRightRight t sprR oR w acc).guides =
      if |sprR - oR| < t then acc.guides ++ [⟨.vertical, oR, .edge⟩] else acc.guides := by
  unfold ruleRightRight; split <;> rfl

theorem ruleLeftOtherRight_guides (t oR : ℚ) (acc : SnapResult) :
    (ruleLeftOtherRight t oR acc).guides =
      if |acc.x - oR| < t then acc.guides ++ [⟨.vertical, oR, .edge⟩] else acc.guides := by
  unfold ruleLeftOtherRight; split <;> rfl

theorem ruleRightOtherLeft_guides (t sprR oX w : ℚ) (acc : SnapResult) :
    (ruleRightOtherLeft t sprR oX w acc).guides =
      if |sprR - oX| < t then acc.guides ++ [⟨.vertical, oX, .edge⟩] else acc.guides := by
  unfold ruleRightOtherLeft; split <;> rfl

theorem ruleCenterX_guides (t sprCX oCX w : ℚ) (acc : SnapResult) :
    (ruleCenterX t sprCX oCX w acc).guides =
      if |sprCX - oCX| < t then acc.guides ++ [⟨.vertical, oCX, .center⟩] else acc.guides := by
  unfold ruleCenterX; split <;> rfl

theorem ruleTopTop_vguides (t oY : ℚ) (acc : SnapResult) :
    verticalGuides (ruleTopTop t oY acc).guides = verticalGuides acc.guides := by
  unfold ruleTopTop; split <;> simp [verticalGuides, List.filter_append]

theorem ruleBottomBottom_vguides (t sprB oB hgt : ℚ) (acc : SnapResult) :
    verticalGuides (ruleBottomBottom t sprB oB hgt acc).guides = verticalGuides acc.guides := by
  unfold ruleBottomBottom; split <;> simp [verticalGuides, List.filter_append]

theorem ruleTopOtherBottom_vguides (t oB : ℚ) (acc : SnapResult) :
    verticalGuides (ruleTopOtherBottom t oB acc).guides = verticalGuides acc.guides := by
  unfold ruleTopOtherBottom; split <;> simp [verticalGuides, List.filter_append]

theorem ruleBottomOtherTop_vguides (t sprB oY hgt : ℚ) (acc : SnapResult) :
    verticalGuides (ruleBottomOtherTop t sprB oY hgt acc).guides =
      verticalGuides acc.guides := by
  unfold ruleBottomOtherTop; split <;> simp [verticalGuides, List.filter_append]

theorem ruleCenterY_vguides (t sprCY oCY hgt : ℚ) (acc : SnapResult) :
    verticalGuides (ruleCenterY t sprCY oCY hgt acc).guides = verticalGuides acc.guides := by
  unfold ruleCenterY; split <;> simp [verticalGuides, List.filter_append]

theorem mem_foldl_insert (p : CanvasSprite → Prop) [DecidablePred p] :
    ∀ (l : List CanvasSprite) (init : Finset String) (id : String),
      (id ∈ l.foldl (fun acc cs => if p cs then insert cs.sprite.id acc else acc) init) ↔
        id ∈ init ∨ ∃ cs ∈ l, p cs ∧ cs.sprite.id = id := by
  intro l
  induction l with
  | nil => intro init id; simp
  | cons hd tl ih =>
    intro init id
    simp only [List.foldl_cons]
    by_cases hp : p hd
    · rw [if_pos hp, ih]
      simp only [Finset.mem_insert, List.mem_cons]
      constructor
      · rintro ((h | h) | ⟨cs, hm, hc, hi⟩)
        · exact Or.inr ⟨hd, Or.inl rfl, hp, h.symm⟩
        · exact Or.inl h
        · exact Or.inr ⟨cs, Or.inr hm, hc, hi⟩
      · rintro (h | ⟨cs, (rfl | hm), hc, hi⟩)
        · exact Or.inl (Or.inr h)
        · exact Or.inl (Or.inl hi.symm)
        · exact Or.inr ⟨cs, hm, hc, hi⟩
    · rw [if_neg hp, ih]
      simp only [List.mem_cons]
      constructor
      · rintro (h | ⟨cs, hm, hc, hi⟩)
        · exact Or.inl h
        · exact Or.inr ⟨cs, Or.inr hm, hc, hi⟩
      · rintro (h | ⟨cs, (rfl | hm), hc, hi⟩)
        · exact Or.inl h
        · exact absurd hc hp
        · exact Or.inr ⟨cs, hm, hc, hi⟩

/-! ## C1: plain (non-additive) selection -/

/-- C1 (amended): for every state and sprite id, `selectSprite(id, false)`
replaces the selection with exactly `{id}`, regardless of the prior
selection. In particular, it does NOT toggle to the empty selection when
`id` was already the sole selected sprite; toggling only happens with
`additive = true`. -/
theorem selectSprite_plain_click_replaces_selection (s : ComposeState) (id : String) :
    (selectSprite id false s).selectedIds = {id} := by
  simp [selectSprite]

/-- C1 counterexample: with the selection exactly `{"s1"}`, calling
`selectSprite("s1", additive = false)` yields `{"s1"}` again, not the
empty selection the claim requires. -/
theorem selectSprite_no_toggle_counterexample :
    (selectSprite "s1" false
      { initialComposeState with selectedIds := {"s1"} }).selectedIds = {"s1"} ∧
    ({"s1"} : Finset String) ≠ (∅ : Finset String) := by
  refine ⟨rfl, ?_⟩
  decide

/-! ## C8: defensive no-ops -/

/-- C8 (amended): misuse is a silent no-op: alignment with fewer than two
selected sprites, distribution with fewer than three selected sprites, and
adding only already-present ids leave the state unchanged for EVERY state;
removing only absent ids leaves the state unchanged for every state whose
selection references only present ids (the data-model invariant). Without
that invariant `removeSprites` may still prune stale selection entries. -/
theorem defensive_noops :
    (∀ (s : ComposeState) (a : Alignment), s.selectedIds.card < 2 → alignSelected a s = s) ∧
    (∀ (s : ComposeState) (dir : Direction), s.selectedIds.card < 3 →
      distributeSelected dir s = s) ∧
    (∀ (s : ComposeState) (ids : List String),
      (∀ id ∈ ids, id ∉ presentIds s) → (∀ id ∈ s.selectedIds, id ∈ presentIds s) →
      removeSprites ids s = s) ∧
    (∀ (s : ComposeState) (sprites : List SpriteData),
      (∀ sp ∈ sprites, sp.id ∈ presentIds s) → addSprites sprites s = s) := by
  refine ⟨?_, ?_, ?_, ?_⟩
  · intro s a h; simp [alignSelected, h]
  · intro s dir h; simp [distributeSelected, h]
  · intro s ids habs hsub
    have h1 : s.canvasSprites.filter (fun cs => !(decide (cs.sprite.id ∈ ids))) =
        s.canvasSprites := by
      apply List.filter_eq_self.mpr
      intro cs hcs
      simp only [Bool.not_eq_true', decide_eq_false_iff_not]
      intro hmem
      exact habs _ hmem (List.mem_map_of_mem _ hcs)
    have h2 : s.selectedIds.filter (fun i => i ∉ ids) = s.selectedIds := by
      apply Finset.filter_true_of_mem
      intro i hi hmem
      exact habs i hmem (hsub i hi)
    simp [removeSprites, h1, h2]
  · intro s sprites h
    have hnil : newSpritesOf sprites s = [] := by
      rw [newSpritesOf, List.filter_eq_nil_iff]
      intro sp hsp
      simp [h sp hsp]
    simp [addSprites, hnil]

/-- C8 counterexample: on a state whose selection holds the stale id
`"ghost"` (absent from the canvas), `removeSprites ["ghost"]` changes the
state: it prunes the stale entry from the selection, so the all-ids-absent
call is not a no-op on every state. -/
theorem removeSprites_stale_selection_counterexample :
    ("ghost" ∉ presentIds { initialComposeState with selectedIds := {"ghost"} }) ∧
    (removeSprites ["ghost"]
      { initialComposeState with selectedIds := {"ghost"} }).selectedIds = ∅ ∧
    removeSprites ["ghost"] { initialComposeState with selectedIds := {"ghost"} } ≠
      { initialComposeState with selectedIds := {"ghost"} } := by
  refine ⟨by simp [presentIds, initialComposeState], ?_, ?_⟩
  · simp [removeSprites, initialComposeState, Finset.filter_singleton]
  · intro h
    have h2 := congrArg ComposeState.selectedIds h
    simp [removeSprites, initialComposeState, Finset.filter_singleton] at h2
    exact Finset.singleton_ne_empty "ghost" h2.symm

/-- C8 witness: a concrete under-sized selection where `alignSelected`
is a no-op. -/
theorem defensive_noops_witness :
    ({ initialComposeState with selectedIds := {"s1"} } : ComposeState).selectedIds.card < 2 ∧
    alignSelected Alignment.left { initialComposeState with selectedIds := {"s1"} } =
      { initialComposeState with selectedIds := {"s1"} } :=
  ⟨by simp, defensive_noops.1 _ Alignment.left (by simp)⟩

/-! ## C9: marquee selection semantics -/

/-- C9: for every selection rectangle and state (with positive sprite and
rectangle extents, as the data model guarantees), `selectSpritesInRect`
selects exactly the sprites whose box overlaps the rectangle with positive
area on both axes; boxes merely touching the boundary are excluded. -/
theorem selectSpritesInRect_marquee_semantics (rect : Rect) (s : ComposeState) (id : String)
    (hpos : ∀ cs ∈ s.canvasSprites, 0 < cs.sprite.width ∧ 0 < cs.sprite.height)
    (hrw : 0 < rect.width) (hrh : 0 < rect.height) :
    id ∈ (selectSpritesInRect rect s).selectedIds ↔
      ∃ cs ∈ s.canvasSprites, cs.sprite.id = id ∧
        rectOverlapPos cs.x (cs.x + cs.sprite.width) cs.y (cs.y + cs.sprite.height)
          rect.x (rect.x + rect.width) rect.y (rect.y + rect.height) := by
  rw [selectSpritesInRect]
  rw [show ({ s with
      selectedIds := s.canvasSprites.foldl (fun acc cs =>
        if cs.x < rect.x + rect.width ∧ cs.x + cs.sprite.width > rect.x ∧
           cs.y < rect.y + rect.height ∧ cs.y + cs.sprite.height > rect.y
        then insert cs.sprite.id acc else acc) ∅ } : ComposeState).selectedIds =
      s.canvasSprites.foldl (fun acc cs =>
        if cs.x < rect.x + rect.width ∧ cs.x + cs.sprite.width > rect.x ∧
           cs.y < rect.y + rect.height ∧ cs.y + cs.sprite.height > rect.y
        then insert cs.sprite.id acc else acc) ∅ from rfl]
  rw [mem_foldl_insert]
  simp only [Finset.not_mem_empty, false_or]
  constructor
  · rintro ⟨cs, hm, ⟨h1, h2, h3, h4⟩, hi⟩
    obtain ⟨hw, hh⟩ := hpos cs hm
    refine ⟨cs, hm, hi, ?_, ?_⟩
    · rw [max_lt_iff, lt_min_iff, lt_min_iff]
      exact ⟨⟨by linarith, h1⟩, h2, by linarith⟩
    · rw [max_lt_iff, lt_min_iff, lt_min_iff]
      exact ⟨⟨by linarith, h3⟩, h4, by linarith⟩
  · rintro ⟨cs, hm, hi, hx, hy⟩
    rw [max_lt_iff, lt_min_iff, lt_min_iff] at hx hy
    exact ⟨cs, hm, ⟨hx.1.2, hx.2.1, hy.1.2, hy.2.1⟩, hi⟩

/-- C9 witness: the marquee characterisation at a concrete one-sprite
state and rectangle. -/
theorem selectSpritesInRect_marquee_semantics_witness :
    (∀ cs ∈ wMarqueeState.canvasSprites, 0 < cs.sprite.width ∧ 0 < cs.sprite.height) ∧
    ((0 : ℚ) < 50) ∧
    ("s1" ∈ (selectSpritesInRect ⟨90, 90, 50, 50⟩ wMarqueeState).selectedIds ↔
      ∃ cs ∈ wMarqueeState.canvasSprites, cs.sprite.id = "s1" ∧
        rectOverlapPos cs.x (cs.x + cs.sprite.width) cs.y (cs.y + cs.sprite.height)
          (Rect.mk 90 90 50 50).x ((Rect.mk 90 90 50 50).x + (Rect.mk 90 90 50 50).width)
          (Rect.mk 90 90 50 50).y ((Rect.mk 90 90 50 50).y + (Rect.mk 90 90 50 50).height)) :=
  ⟨by
    intro cs h
    simp [wMarqueeState, initialComposeState] at h
    rw [h]
    constructor <;> norm_num [placedOne, spriteOne],
   by norm_num,
   selectSpritesInRect_marquee_semantics ⟨90, 90, 50, 50⟩ wMarqueeState "s1"
     (by
       intro cs h
       simp [wMarqueeState, initialComposeState] at h
       rw [h]
       constructor <;> norm_num [placedOne, spriteOne])
     (by norm_num) (by norm_num)⟩

/-! ## C10: no deduplication inside a batch -/

/-- C10: `addSprites` deduplicates only against the canvas, not within the
batch: a batch that repeats the fresh id `"dup"` places both records,
leaving two placed sprites with equal ids on the canvas. -/
theorem addSprites_keeps_batch_duplicates :
    (addSprites [dupFirst, dupSecond] initialComposeState).canvasSprites =
      [⟨dupFirst, 20, 20, 1⟩, ⟨dupSecond, 60, 20, 2⟩] ∧
    presentIds (addSprites [dupFirst, dupSecond] initialComposeState) = ["dup", "dup"] := by
  constructor <;>
    norm_num +decide [addSprites, newSpritesOf, placeAll, startX, presentIds,
      initialComposeState, dupFirst, dupSecond]

/-! ## C2: staircase initial placement -/

theorem placeAll_head? (nx ny : ℚ) (z : ℕ) (sp : SpriteData) (rest : List SpriteData) :
    (placeAll nx ny z (sp :: rest)).head? = some ⟨sp, nx, ny, z + 1⟩ := by
  rw [placeAll]
  split <;> rfl

theorem placeAll_chain' : ∀ (l : List SpriteData) (nx ny : ℚ) (z : ℕ),
    List.Chain' stairRel (placeAll nx ny z l) := by
  intro l
  induction l with
  | nil => intro nx ny z; simp [placeAll]
  | cons sp rest ih =>
    intro nx ny z
    rw [placeAll]
    split
    next h =>
      rw [List.chain'_cons']
      refine ⟨?_, ih 20 (ny + 200) (z + 1)⟩
      intro b hb
      cases rest with
      | nil => simp [placeAll] at hb
      | cons sp2 r2 =>
        rw [placeAll_head?] at hb
        rw [Option.mem_def, Option.some_inj] at hb
        subst hb
        unfold stairRel stairStep
        dsimp only
        rw [if_pos h]
    next h =>
      rw [List.chain'_cons']
      refine ⟨?_, ih (nx + sp.width + 10) ny (z + 1)⟩
      intro b hb
      cases rest with
      | nil => simp [placeAll] at hb
      | cons sp2 r2 =>
        rw [placeAll_head?] at hb
        rw [Option.mem_def, Option.some_inj] at hb
        subst hb
        unfold stairRel stairStep
        dsimp only
        rw [if_neg h]

/-- C2 (amended): when the filtered batch is nonempty, `addSprites`
appends sprites placed by the staircase walk: the first new sprite sits at
`(startX s, 20)` — which is `(20, 20)` only when the canvas is EMPTY;
on a non-empty canvas the cursor starts at the existing sprites' maximal
right edge plus 10 — and each later sprite advances by `width + 10`,
wrapping to `x = 20, y + 200` whenever the advanced `x` exceeds `2000`
(the `stairRel` chain). -/
theorem addSprites_staircase (sprites : List SpriteData) (s : ComposeState)
    (hne : (newSpritesOf sprites s).length ≠ 0) :
    (addSprites sprites s).canvasSprites =
      s.canvasSprites ++ placeAll (startX s) 20 s.maxZIndex (newSpritesOf sprites s) ∧
    (placeAll (startX s) 20 s.maxZIndex (newSpritesOf sprites s)).head? =
      (newSpritesOf sprites s).head?.map (fun sp => ⟨sp, startX s, 20, s.maxZIndex + 1⟩) ∧
    (s.canvasSprites = [] → startX s = 20) ∧
    List.Chain' stairRel (placeAll (startX s) 20 s.maxZIndex (newSpritesOf sprites s)) := by
  refine ⟨?_, ?_, ?_, placeAll_chain' _ _ _ _⟩
  · simp [addSprites, hne]
  · cases hn : newSpritesOf sprites s with
    | nil => simp [hn, placeAll]
    | cons sp rest => rw [placeAll_head?]; rfl
  · intro h; simp [startX, h]

/-- C2 counterexample: adding a sprite to a canvas already holding one
100-wide sprite at `(20, 20)` places the new sprite at `(130, 20)` — not
at `(20, 20)` as the claim requires regardless of existing sprites. -/
theorem addSprites_nonempty_start_counterexample :
    (newSpritesOf [spriteTwo] oneSpriteState).length ≠ 0 ∧
    (addSprites [spriteTwo] oneSpriteState).canvasSprites =
      [⟨spriteOne, 20, 20, 1⟩, ⟨spriteTwo, 130, 20, 2⟩] ∧
    ((130 : ℚ), (20 : ℚ)) ≠ ((20 : ℚ), (20 : ℚ)) := by
  refine ⟨?_, ?_, ?_⟩
  · norm_num +decide [newSpritesOf, presentIds, oneSpriteState, addSprites, placeAll,
      startX, initialComposeState, spriteOne, spriteTwo]
  · norm_num +decide [addSprites, newSpritesOf, placeAll, startX, presentIds,
      initialComposeState, oneSpriteState, spriteOne, spriteTwo]
  · norm_num

/-- C2 witness: the staircase theorem applied to one sprite entering an
empty canvas. -/
theorem addSprites_staircase_witness :
    (newSpritesOf [spriteOne] initialComposeState).length ≠ 0 ∧
    List.Chain' stairRel
      (placeAll (startX initialComposeState) 20 initialComposeState.maxZIndex
        (newSpritesOf [spriteOne] initialComposeState)) :=
  ⟨by decide, (addSprites_staircase [spriteOne] initialComposeState (by decide)).2.2.2⟩

/-! ## C3: snap fixed point at rest -/

/-- C3 (amended): if sprite A's left edge equals sprite B's left edge AND
the two sprites have the same width, with the snap threshold at most that
width, then recomputing the snap of A at its current position (drag delta
`(0,0)`) against `[B]` leaves A's `x` unchanged — for every height and
every vertical position of A. (For differing widths the right-edge and
center rules can move `x`, and the horizontal rules can move `y`; see the
counterexample.) -/
theorem calculateSnap_rest_fixed_x (b : CanvasSprite) (hgt yA t : ℚ)
    (hw : 0 ≤ b.sprite.width) (ht : t ≤ b.sprite.width) :
    (calculateSnap (b.x, yA) (b.sprite.width, hgt) [b] t).x = b.x := by
  have habs1 : |b.x - (b.x + b.sprite.width)| = b.sprite.width := by
    rw [abs_sub_comm, add_sub_cancel_left, abs_of_nonneg hw]
  have habs2 : |b.x + b.sprite.width - b.x| = b.sprite.width := by
    rw [add_sub_cancel_left, abs_of_nonneg hw]
  have h1 : ∀ acc : SnapResult, acc.x = b.x → (ruleLeftLeft t b.x acc).x = b.x := by
    intro acc h; rw [ruleLeftLeft_x, h]; split <;> rfl
  have h2 : ∀ acc : SnapResult, acc.x = b.x →
      (ruleRightRight t (b.x + b.sprite.width) (b.x + b.sprite.width) b.sprite.width acc).x
        = b.x := by
    intro acc h; rw [ruleRightRight_x, h]
    split
    · ring
    · rfl
  have h3 : ∀ acc : SnapResult, acc.x = b.x →
      (ruleLeftOtherRight t (b.x + b.sprite.width) acc).x = b.x := by
    intro acc h; rw [ruleLeftOtherRight_x, h, habs1, if_neg (not_lt.mpr ht)]
  have h4 : ∀ acc : SnapResult, acc.x = b.x →
      (ruleRightOtherLeft t (b.x + b.sprite.width) b.x b.sprite.width acc).x = b.x := by
    intro acc h; rw [ruleRightOtherLeft_x, habs2, if_neg (not_lt.mpr ht)]; exact h
  have h5 : ∀ acc : SnapResult, acc.x = b.x →
      (ruleCenterX t (b.x + b.sprite.width / 2) (b.x + b.sprite.width / 2)
        b.sprite.width acc).x = b.x := by
    intro acc h; rw [ruleCenterX_x, h]
    split
    · ring
    · rfl
  rw [calculateSnap]
  rw [List.foldl_cons, List.foldl_nil, snapAgainst]
  rw [ruleCenterY_x, ruleBottomOtherTop_x, ruleTopOtherBottom_x, ruleBottomBottom_x,
    ruleTopTop_x]
  exact h5 _ (h4 _ (h3 _ (h2 _ (h1 ⟨b.x, yA, []⟩ rfl))))

/-- C3 counterexample: a 100-wide sprite at `(20, 500)` whose left edge
already coincides with the left edge of the 104-wide `placedWide` drifts
from `x = 20` to `x = 22` when snapped at drag delta `(0, 0)` (the
right-edge rule pulls it to 25, then the center rule to 22). -/
theorem snap_drift_counterexample :
    placedWide.x = 20 ∧
    (calculateSnap (20, 500) (100, 100) [placedWide] 8).x = 22 ∧ ((22 : ℚ) ≠ 20) := by
  refine ⟨rfl, ?_, by norm_num⟩
  norm_num [calculateSnap, snapAgainst, ruleLeftLeft, ruleRightRight, ruleLeftOtherRight,
    ruleRightOtherLeft, ruleCenterX, ruleTopTop, ruleBottomBottom, ruleTopOtherBottom,
    ruleBottomOtherTop, ruleCenterY, placedWide]

/-- C3 witness: the fixed-point theorem applied to `placedOne` against
itself-shaped data at threshold 8. -/
theorem calculateSnap_rest_fixed_x_witness :
    ((0 : ℚ) ≤ placedOne.sprite.width) ∧ ((8 : ℚ) ≤ placedOne.sprite.width) ∧
    (calculateSnap (placedOne.x, 500) (placedOne.sprite.width, 100) [placedOne] 8).x =
      placedOne.x :=
  ⟨by norm_num [placedOne, spriteOne], by norm_num [placedOne, spriteOne],
   calculateSnap_rest_fixed_x placedOne 100 500 8 (by norm_num [placedOne, spriteOne])
     (by norm_num [placedOne, spriteOne])⟩

/-! ## C4: the 130/120 snap scenario -/

/-- C4: two 100×100 sprites added to an empty canvas land at `(20, 20)`
and `(130, 20)`; dragging the second sprite to any position whose left
edge is within 5 world units of `x = 120` and snapping (threshold 8)
against the first sprite returns `x = 120` exactly, and the guide list
published to the renderer carries exactly one vertical `edge` guide at
position `120`. -/
theorem two_sprite_snap_scenario (x y : ℚ) (hx : |x - 120| ≤ 5) :
    (addSprites [spriteOne, spriteTwo] initialComposeState).canvasSprites =
      [⟨spriteOne, 20, 20, 1⟩, ⟨spriteTwo, 130, 20, 2⟩] ∧
    (calculateSnap (x, y) (100, 100) [placedOne] 8).x = 120 ∧
    verticalGuides (calculateSnap (x, y) (100, 100) [placedOne] 8).guides =
      [⟨.vertical, 120, .edge⟩] := by
  obtain ⟨hxl, hxr⟩ := abs_le.mp hx
  have hc1 : ¬(|x - 20| < 8) := by
    rw [abs_lt]; rintro ⟨-, h⟩; linarith
  have hc2 : ¬(|x + 100 - 120| < 8) := by
    rw [show x + 100 - 120 = x - 20 by ring]; exact hc1
  have hc3 : |x - 120| < 8 := lt_of_le_of_lt hx (by norm_num)
  have hc4 : ¬(|x + 100 - 20| < 8) := by
    rw [abs_lt]; rintro ⟨-, h⟩; linarith
  have hc5 : ¬(|x + 50 - 70| < 8) := by
    rw [show x + 50 - 70 = x - 20 by ring]; exact hc1
  refine ⟨?_, ?_, ?_⟩
  · norm_num +decide [addSprites, newSpritesOf, placeAll, startX, presentIds,
      initialComposeState, spriteOne, spriteTwo]
  · rw [calculateSnap, List.foldl_cons, List.foldl_nil, snapAgainst]
    rw [ruleCenterY_x, ruleBottomOtherTop_x, ruleTopOtherBottom_x, ruleBottomBottom_x,
      ruleTopTop_x]
    rw [ruleCenterX_x, ruleRightOtherLeft_x, ruleLeftOtherRight_x, ruleRightRight_x,
      ruleLeftLeft_x]
    norm_num [placedOne, spriteOne]
    simp only [if_neg hc5, if_neg hc4, if_neg hc2, if_neg hc1, if_pos hc3]
  · rw [calculateSnap, List.foldl_cons, List.foldl_nil, snapAgainst]
    rw [ruleCenterY_vguides, ruleBottomOtherTop_vguides, ruleTopOtherBottom_vguides,
      ruleBottomBottom_vguides, ruleTopTop_vguides]
    rw [ruleCenterX_guides, ruleRightOtherLeft_guides, ruleLeftOtherRight_guides,
      ruleRightRight_guides, ruleLeftLeft_guides, ruleRightRight_x, ruleLeftLeft_x]
    norm_num [placedOne, spriteOne]
    simp only [if_neg hc5, if_neg hc4, if_neg hc2, if_neg hc1, if_pos hc3]
    simp [verticalGuides]

/-- C4 witness: the scenario at the concrete dragged position `(118, 777)`. -/
theorem two_sprite_snap_scenario_witness :
    |(118 : ℚ) - 120| ≤ 5 ∧
    (calculateSnap ((118 : ℚ), 777) (100, 100) [placedOne] 8).x = 120 :=
  ⟨by norm_num, (two_sprite_snap_scenario 118 777 (by norm_num)).2.1⟩

/-! ## C5: z-order monotonicity -/

theorem placeAll_zIndex_le : ∀ (l : List SpriteData) (nx ny : ℚ) (z : ℕ),
    ∀ cs ∈ placeAll nx ny z l, cs.zIndex ≤ z + l.length := by
  intro l
  induction l with
  | nil => intro nx ny z cs h; simp [placeAll] at h
  | cons sp rest ih =>
    intro nx ny z cs h
    rw [placeAll] at h
    split at h <;> rcases List.mem_cons.mp h with rfl | hm
    · show z + 1 ≤ z + (rest.length + 1)
      omega
    · have := ih _ _ (z + 1) cs hm
      simp only [List.length_cons]
      omega
    · show z + 1 ≤ z + (rest.length + 1)
      omega
    · have := ih _ _ (z + 1) cs hm
      simp only [List.length_cons]
      omega

theorem zInv_addSprites (l : List SpriteData) (s : ComposeState) (h : zInv s) :
    zInv (addSprites l s) := by
  rw [addSprites]
  split
  · exact h
  · intro cs hcs
    rcases List.mem_append.mp hcs with hm | hm
    · exact le_trans (h cs hm) (Nat.le_add_right _ _)
    · exact placeAll_zIndex_le _ _ _ _ cs hm

theorem zInv_applyOp (op : StoreOp) (s : ComposeState) (h : zInv s) : zInv (applyOp op s) := by
  cases op with
  | add l => exact zInv_addSprites l s h
  | remove ids =>
    show zInv (removeSprites ids s)
    intro cs hcs
    exact h cs (List.mem_of_mem_filter hcs)
  | clear =>
    show zInv (clearCanvas s)
    intro cs hcs
    simp [clearCanvas] at hcs
  | front id =>
    show zInv (bringToFront id s)
    intro cs hcs
    simp only [bringToFront] at hcs ⊢
    rcases List.mem_map.mp hcs with ⟨a, ha, rfl⟩
    by_cases hid : a.sprite.id = id
    · simp [hid]
    · simp only [hid, if_false]
      exact le_trans (h a ha) (Nat.le_succ _)
  | back id =>
    show zInv (sendToBack id s)
    intro cs hcs
    simp only [sendToBack] at hcs ⊢
    rcases List.mem_map.mp hcs with ⟨a, ha, rfl⟩
    by_cases hid : a.sprite.id = id
    · simp [hid]
    · simp only [hid, if_false]
      exact h a ha
  | moveOne id x y =>
    show zInv (updateSpritePosition id x y s)
    intro cs hcs
    simp only [updateSpritePosition] at hcs ⊢
    rcases List.mem_map.mp hcs with ⟨a, ha, rfl⟩
    by_cases hid : a.sprite.id = id
    · simp only [hid, if_true]
      exact h a ha
    · simp only [hid, if_false]
      exact h a ha
  | move us =>
    show zInv (updateSpritesPosition us s)
    intro cs hcs
    simp only [updateSpritesPosition, applyUpdates] at hcs ⊢
    rcases List.mem_map.mp hcs with ⟨a, ha, rfl⟩
    cases hf : lastLookup us a.sprite.id with
    | none => simp only [hf]; exact h a ha
    | some u => simp only [hf]; exact h a ha

theorem zInv_runOps (ops : List StoreOp) : ∀ s, zInv s → zInv (runOps ops s) := by
  induction ops with
  | nil => intro s h; exact h
  | cons op rest ih => intro s h; exact ih _ (zInv_applyOp op s h)

/-- C5 (amended): across every sequence of store transitions the counter
`maxZIndex` dominates every placed sprite's `zIndex`, and `bringToFront`
assigns the target sprite `maxZIndex + 1`, strictly greater than every
zIndex currently on the canvas — that is, strictly greater than every
zIndex observed since the last `clearCanvas`. (Across a `clearCanvas` the
counter resets, so the assigned value need not exceed zIndexes observed
before the reset; see the counterexample.) -/
theorem zOrder_spec :
    zInv initialComposeState ∧
    (∀ (op : StoreOp) (s : ComposeState), zInv s → zInv (applyOp op s)) ∧
    (∀ ops : List StoreOp, zInv (runOps ops initialComposeState)) ∧
    (∀ (s : ComposeState) (id : String), zInv s →
      ∀ cs ∈ (bringToFront id s).canvasSprites, cs.sprite.id = id →
        cs.zIndex = s.maxZIndex + 1 ∧ ∀ cs2 ∈ s.canvasSprites, cs2.zIndex < cs.zIndex) := by
  have hinit : zInv initialComposeState := by
    intro cs h; simp [initialComposeState] at h
  refine ⟨hinit, zInv_applyOp, fun ops => zInv_runOps ops _ hinit, ?_⟩
  intro s id h cs hcs hid
  simp only [bringToFront] at hcs
  rcases List.mem_map.mp hcs with ⟨a, ha, rfl⟩
  by_cases hida : a.sprite.id = id
  · simp only [hida, if_true]
    constructor
    · trivial
    · intro cs2 hcs2
      have := h cs2 hcs2
      show cs2.zIndex < s.maxZIndex + 1
      omega
  · simp only [hida, if_false] at hid

/-- C5 counterexample: run `add [s1, s2]; clear; add [s1]; bringToFront
"s1"`. The first transition makes zIndex `2` observed; after the clear,
`bringToFront` assigns `2` again — not strictly greater than the maximum
zIndex previously observed in the trace. -/
theorem zOrder_observed_counterexample :
    (addSprites [spriteOne, spriteTwo] initialComposeState).canvasSprites.map
        (fun cs => cs.zIndex) = [1, 2] ∧
    (runOps [.add [spriteOne, spriteTwo], .clear, .add [spriteOne], .front "s1"]
        initialComposeState).canvasSprites.map (fun cs => cs.zIndex) = [2] ∧
    ¬(2 > 2) := by
  refine ⟨?_, ?_, by omega⟩
  · norm_num +decide [addSprites, newSpritesOf, placeAll, startX, presentIds,
      initialComposeState, spriteOne, spriteTwo]
  · norm_num +decide [runOps, applyOp, addSprites, newSpritesOf, placeAll, startX,
      presentIds, initialComposeState, clearCanvas, bringToFront, spriteOne, spriteTwo]

/-- C5 witness: the invariant and the `bringToFront` assignment at a
concrete one-sprite state with the counter at 1. -/
theorem zOrder_spec_witness :
    zInv wZState ∧
    ((⟨spriteOne, 20, 20, 2⟩ : CanvasSprite).zIndex = wZState.maxZIndex + 1 ∧
      ∀ cs2 ∈ wZState.canvasSprites,
        cs2.zIndex < (⟨spriteOne, 20, 20, 2⟩ : CanvasSprite).zIndex) :=
  ⟨by
    intro cs h
    simp [wZState, initialComposeState] at h
    simp [h, placedOne, wZState, initialComposeState],
   zOrder_spec.2.2.2 wZState "s1"
     (by
       intro cs h
       simp [wZState, initialComposeState] at h
       simp [h, placedOne, wZState, initialComposeState])
     ⟨spriteOne, 20, 20, 2⟩
     (by simp [bringToFront, wZState, initialComposeState, placedOne, spriteOne])
     rfl⟩

/-! ## C6: id uniqueness and selection subset -/

theorem placeAll_ids : ∀ (l : List SpriteData) (nx ny : ℚ) (z : ℕ),
    (placeAll nx ny z l).map (fun cs => cs.sprite.id) = l.map SpriteData.id := by
  intro l
  induction l with
  | nil => intro nx ny z; simp [placeAll]
  | cons sp rest ih =>
    intro nx ny z
    rw [placeAll]
    split <;> simp [ih]

theorem uniqInv_addSprites (l : List SpriteData) (s : ComposeState)
    (hbatch : (l.map SpriteData.id).Nodup) (h : uniqInv s) : uniqInv (addSprites l s) := by
  rw [addSprites]
  split
  · exact h
  · obtain ⟨hnodup, hsub⟩ := h
    constructor
    · show ((s.canvasSprites ++ placeAll (startX s) 20 s.maxZIndex
        (newSpritesOf l s)).map (fun cs => cs.sprite.id)).Nodup
      rw [List.map_append, placeAll_ids, List.nodup_append]
      refine ⟨hnodup, ?_, ?_⟩
      · have hsl : List.Sublist ((newSpritesOf l s).map SpriteData.id)
            (l.map SpriteData.id) := (List.filter_sublist _).map _
        exact hsl.nodup hbatch
      · intro a ha hb
        rcases List.mem_map.mp hb with ⟨sp, hsp, rfl⟩
        have := List.mem_filter.mp hsp
        simp only [Bool.not_eq_true', decide_eq_false_iff_not] at this
        exact this.2 ha
    · intro id hid
      have := hsub id hid
      show id ∈ (s.canvasSprites ++ _).map (fun cs => cs.sprite.id)
      rw [List.map_append]
      exact List.mem_append_left _ this

theorem uniqInv_removeSprites (ids : List String) (s : ComposeState) (h : uniqInv s) :
    uniqInv (removeSprites ids s) := by
  obtain ⟨hnodup, hsub⟩ := h
  constructor
  · show ((s.canvasSprites.filter _).map (fun cs => cs.sprite.id)).Nodup
    exact ((List.filter_sublist _).map _).nodup hnodup
  · intro id hid
    rw [show (removeSprites ids s).selectedIds = s.selectedIds.filter (fun i => i ∉ ids)
        from rfl, Finset.mem_filter] at hid
    obtain ⟨hid1, hid2⟩ := hid
    rcases List.mem_map.mp (hsub id hid1) with ⟨cs, hcs, rfl⟩
    refine List.mem_map_of_mem _ (List.mem_filter.mpr ⟨hcs, ?_⟩)
    simp [hid2]

theorem uniqInv_runOps (ops : List StoreOp) :
    ∀ s, uniqInv s → (∀ op ∈ ops, validBatchOp op) → uniqInv (runOps ops s) := by
  induction ops with
  | nil => intro s h _; exact h
  | cons op rest ih =>
    intro s h hv
    have hop := hv op (List.mem_cons_self _ _)
    have hstep : uniqInv (applyOp op s) := by
      cases op with
      | add l => exact uniqInv_addSprites l s hop h
      | remove ids => exact uniqInv_removeSprites ids s h
      | clear => exact hop.elim
      | front id => exact hop.elim
      | back id => exact hop.elim
      | moveOne id x y => exact hop.elim
      | move us => exact hop.elim
    exact ih _ hstep (fun op2 h2 => hv op2 (List.mem_cons_of_mem _ h2))

/-- C6: starting from the initial state, every sequence of
`addSprites`/`removeSprites` calls whose batches use unique ids keeps the
canvas ids unique and the selection a subset of the present ids: the
invariant holds initially, is preserved by each of the two operations, and
therefore holds after every valid add/remove trace. -/
theorem uniqueness_selection_invariant :
    uniqInv initialComposeState ∧
    (∀ (l : List SpriteData) (s : ComposeState),
      (l.map SpriteData.id).Nodup → uniqInv s → uniqInv (addSprites l s)) ∧
    (∀ (ids : List String) (s : ComposeState), uniqInv s → uniqInv (removeSprites ids s)) ∧
    (∀ ops : List StoreOp, (∀ op ∈ ops, validBatchOp op) →
      uniqInv (runOps ops initialComposeState)) := by
  have hinit : uniqInv initialComposeState :=
    ⟨by simp [presentIds, initialComposeState], by simp [initialComposeState]⟩
  exact ⟨hinit, fun l s hb h => uniqInv_addSprites l s hb h,
    fun ids s h => uniqInv_removeSprites ids s h,
    fun ops hv => uniqInv_runOps ops _ hinit hv⟩

/-- C6 witness: the invariant after adding one duplicate-free batch to the
initial state. -/
theorem uniqueness_selection_invariant_witness :
    (([spriteOne] : List SpriteData).map SpriteData.id).Nodup ∧
    uniqInv initialComposeState ∧
    uniqInv (addSprites [spriteOne] initialComposeState) :=
  ⟨by simp,
   ⟨by simp [presentIds, initialComposeState], by simp [initialComposeState]⟩,
   uniqueness_selection_invariant.2.1 [spriteOne] initialComposeState (by simp)
     ⟨by simp [presentIds, initialComposeState], by simp [initialComposeState]⟩⟩

/-! ## C7: distribution of selected sprites -/

theorem distUpdates_map_coord (dir : Direction) (gap : ℚ) :
    ∀ (l : List CanvasSprite) (cur : ℚ),
      (distUpdates dir gap cur l).map (distCoord dir) =
        coordsFrom cur gap (l.map (distSize dir)) := by
  intro l
  induction l with
  | nil => intro cur; cases dir <;> simp [distUpdates, coordsFrom]
  | cons cs rest ih =>
    intro cur
    cases dir <;> simp [distUpdates, coordsFrom, distCoord, ih]

theorem distUpdates_map_id (dir : Direction) (gap : ℚ) :
    ∀ (l : List CanvasSprite) (cur : ℚ),
      (distUpdates dir gap cur l).map PosUpdate.id = l.map (fun cs => cs.sprite.id) := by
  intro l
  induction l with
  | nil => intro cur; cases dir <;> simp [distUpdates]
  | cons cs rest ih =>
    intro cur
    cases dir <;> simp [distUpdates, ih]

theorem distUpdates_map_cross (dir : Direction) (gap : ℚ) :
    ∀ (l : List CanvasSprite) (cur : ℚ),
      (distUpdates dir gap cur l).map (distCross dir) = l.map (spriteCross dir) := by
  intro l
  induction l with
  | nil => intro cur; cases dir <;> simp [distUpdates]
  | cons cs rest ih =>
    intro cur
    cases dir <;> simp [distUpdates, distCross, spriteCross, ih]

theorem coordsFrom_chain' (gap : ℚ) : ∀ (ws : List ℚ) (cur : ℚ),
    List.Chain' (fun p q => q.2 = p.2 + p.1 + gap) (ws.zip (coordsFrom cur gap ws)) := by
  intro ws
  induction ws with
  | nil => intro cur; simp [coordsFrom]
  | cons w rest ih =>
    intro cur
    rw [coordsFrom, List.zip_cons_cons, List.chain'_cons']
    refine ⟨?_, ih _⟩
    intro b hb
    cases rest with
    | nil => simp [coordsFrom] at hb
    | cons w2 r2 =>
      rw [coordsFrom, List.zip_cons_cons] at hb
      simp only [List.head?_cons, Option.mem_def, Option.some_inj] at hb
      subst hb
      show cur + w + gap = cur + w + gap
      rfl

theorem coordsFrom_getLast? (gap : ℚ) : ∀ (ws : List ℚ) (cur : ℚ), ws ≠ [] →
    (coordsFrom cur gap ws).getLast? =
      some (cur + ws.dropLast.sum + ((ws.length - 1 : ℕ) : ℚ) * gap) := by
  intro ws
  induction ws with
  | nil => intro cur h; exact absurd rfl h
  | cons w rest ih =>
    intro cur _
    cases rest with
    | nil => simp [coordsFrom]
    | cons w2 r2 =>
      have h2 := ih (cur + w + gap) (by simp)
      rw [coordsFrom, coordsFrom, List.getLast?_cons_cons, ← coordsFrom, h2]
      congr 1
      rw [List.dropLast_cons₂, List.sum_cons]
      have hl1 : ((w :: w2 :: r2).length - 1 : ℕ) = ((w2 :: r2).length : ℕ) := by
        simp
      rw [hl1, Nat.cast_sub (by simp : 1 ≤ (w2 :: r2).length)]
      push_cast
      ring

theorem mem_insSorted (key : CanvasSprite → ℚ) (c : CanvasSprite) :
    ∀ (l : List CanvasSprite) (a : CanvasSprite), a ∈ insSorted key c l ↔ a = c ∨ a ∈ l := by
  intro l
  induction l with
  | nil => intro a; simp [insSorted]
  | cons h t ih =>
    intro a
    rw [insSorted]
    split <;> (simp only [List.mem_cons, ih]; try tauto)

theorem insSorted_sorted (key : CanvasSprite → ℚ) (c : CanvasSprite) :
    ∀ l : List CanvasSprite, List.Sorted (· ≤ ·) (l.map key) →
      List.Sorted (· ≤ ·) ((insSorted key c l).map key) := by
  intro l
  induction l with
  | nil => intro _; simp [insSorted]
  | cons h t ih =>
    intro hs
    rw [insSorted]
    split
    next hle =>
      simp only [List.map_cons, List.sorted_cons] at hs ⊢
      refine ⟨?_, hs⟩
      intro b hb
      rcases List.mem_cons.mp hb with rfl | hb2
      · exact hle
      · exact le_trans hle (hs.1 b hb2)
    next hgt =>
      push_neg at hgt
      simp only [List.map_cons, List.sorted_cons] at hs ⊢
      refine ⟨?_, ih hs.2⟩
      intro b hb
      rcases List.mem_map.mp hb with ⟨a, ha, rfl⟩
      rcases (mem_insSorted key c t a).mp ha with rfl | ha2
      · exact le_of_lt hgt
      · exact hs.1 _ (List.mem_map_of_mem _ ha2)

theorem sortByKey_sorted (key : CanvasSprite → ℚ) :
    ∀ l : List CanvasSprite, List.Sorted (· ≤ ·) ((sortByKey key l).map key) := by
  intro l
  induction l with
  | nil => simp [sortByKey]
  | cons h t ih => rw [sortByKey]; exact insSorted_sorted key h _ ih

theorem getLast_map_size (dir : Direction) (f : CanvasSprite) (rest : List CanvasSprite) :
    ((f :: rest).map (distSize dir)).getLast (by simp) =
      distSize dir ((f :: rest).getLast (List.cons_ne_nil f rest)) := by
  have h1 := List.getLast?_eq_getLast ((f :: rest).map (distSize dir)) (by simp)
  have h2 := List.getLast?_eq_getLast (f :: rest) (List.cons_ne_nil f rest)
  have h3 := List.getLast?_map (distSize dir) (f :: rest)
  rw [h1, h2] at h3
  simpa using h3

/-- C7: with at least 3 sprites selected, `distributeSelected` applies the
update list built over the selection sorted by position along the
direction: ids and cross coordinates are preserved, the first and last
sprites keep their coordinate (`head?`/`getLast?` agree with the sorted
originals), and each consecutive pair (in sorted order) satisfies
`next = current + size + gap` with `gap = (last.pos + last.size −
first.pos − totalSize) / (count − 1)` exactly and unclamped — negative
gaps included. Both directions are covered. -/
theorem distributeSelected_spec (s : ComposeState)
    (hcard : 3 ≤ s.selectedIds.card)
    (hlen : ∀ dir : Direction, 3 ≤ (distSorted dir s).length) :
    ∀ dir : Direction,
      distributeSelected dir s =
        { s with canvasSprites := applyUpdates (distUpdatesOf dir s) s.canvasSprites } ∧
      (distUpdatesOf dir s).map PosUpdate.id =
        (distSorted dir s).map (fun cs => cs.sprite.id) ∧
      (distUpdatesOf dir s).map (distCross dir) = (distSorted dir s).map (spriteCross dir) ∧
      List.Sorted (· ≤ ·) ((distSorted dir s).map (distPos dir)) ∧
      ((distUpdatesOf dir s).map (distCoord dir)).head? =
        ((distSorted dir s).map (distPos dir)).head? ∧
      ((distUpdatesOf dir s).map (distCoord dir)).getLast? =
        ((distSorted dir s).map (distPos dir)).getLast? ∧
      List.Chain' (fun p q => q.2 = p.2 + p.1 + distGap dir (distSorted dir s))
        (((distSorted dir s).map (distSize dir)).zip
          ((distUpdatesOf dir s).map (distCoord dir))) := by
  intro dir
  have hlen3 := hlen dir
  obtain ⟨f, rest, hfr⟩ : ∃ f rest, distSorted dir s = f :: rest := by
    cases h : distSorted dir s with
    | nil => rw [h] at hlen3; simp at hlen3
    | cons f rest => exact ⟨f, rest, rfl⟩
  have hanchor : distributeSelected dir s =
      { s with canvasSprites := applyUpdates (distUpdatesOf dir s) s.canvasSprites } := by
    rw [distributeSelected, if_neg (by omega : ¬(s.selectedIds.card < 3)),
      if_neg (by omega : ¬((distSorted dir s).length < 3))]
  have hu : distUpdatesOf dir s =
      distUpdates dir (distGap dir (f :: rest)) (distPos dir f) (f :: rest) := by
    rw [distUpdatesOf, hfr]
  refine ⟨hanchor, ?_, ?_, ?_, ?_, ?_, ?_⟩
  · rw [hu, distUpdates_map_id, hfr]
  · rw [hu, distUpdates_map_cross, hfr]
  · rw [distSorted]
    exact sortByKey_sorted _ _
  · rw [hu, distUpdates_map_coord, hfr, List.map_cons, List.map_cons, coordsFrom]
    rfl
  · rw [hu, distUpdates_map_coord, hfr]
    rw [coordsFrom_getLast? _ _ _ (by simp)]
    rw [List.getLast?_map, List.getLast?_eq_getLast (f :: rest) (List.cons_ne_nil f rest)]
    rw [Option.map_some']
    rw [Option.some_inj]
    have hn1 : (1 : ℕ) ≤ (f :: rest).length := by
      rw [hfr] at hlen3; omega
    have hcast : ((((f :: rest).map (distSize dir)).length - 1 : ℕ) : ℚ) =
        (((f :: rest).length : ℚ) - 1) := by
      rw [List.length_map, Nat.cast_sub hn1, Nat.cast_one]
    have hne0 : (((f :: rest).length : ℚ) - 1) ≠ 0 := by
      rw [hfr] at hlen3
      have h3 : (3 : ℚ) ≤ ((f :: rest).length : ℚ) := by exact_mod_cast hlen3
      intro h
      rw [sub_eq_zero] at h
      rw [h] at h3
      norm_num at h3
    have hsum : ((f :: rest).map (distSize dir)).dropLast.sum =
        ((f :: rest).map (distSize dir)).sum -
          distSize dir ((f :: rest).getLast (List.cons_ne_nil f rest)) := by
      have hws : ((f :: rest).map (distSize dir)) ≠ [] := by simp
      have happ := List.dropLast_append_getLast hws
      have hsum2 := congrArg List.sum happ
      rw [List.sum_append, List.sum_cons, List.sum_nil, getLast_map_size] at hsum2
      linarith
    rw [hcast, hsum, distGap]
    rw [mul_comm, div_mul_cancel₀ _ hne0]
    ring
  · rw [hu, distUpdates_map_coord, hfr]
    exact coordsFrom_chain' _ _ _

/-- C7 witness: the distribution specification at a concrete three-sprite
selected state. -/
theorem distributeSelected_spec_witness :
    3 ≤ wDistState.selectedIds.card ∧
    (∀ dir : Direction, 3 ≤ (distSorted dir wDistState).length) ∧
    distributeSelected Direction.horizontal wDistState =
      { wDistState with
        canvasSprites :=
          applyUpdates (distUpdatesOf Direction.horizontal wDistState)
            wDistState.canvasSprites } :=
  ⟨by decide, by intro dir; cases dir <;> decide,
   (distributeSelected_spec wDistState (by decide)
     (by intro dir; cases dir <;> decide) Direction.horizontal).1⟩

end EzPlist
